import Mathlib

/-!
# Verification of the koinos-p2p block-synchronization core

Shallow embedding of the Go sources:
* `internal/protocol/peer_handler.go` — `PeerHandler`, its height-range
  coalescing loop, topology poll cycle and download worker;
* `internal/p2p/connection_manager.go` — `ConnectionManager`, connect /
  disconnect handling and the initial-peer backoff;
* `internal/options` — `GossipToggleOptions` and its defaults;
* `cmd/koinos-p2p/main.go` — construction of the configuration from the
  `--disable-gossip` / `--force-gossip` flags;
* the host construction `NewKoinosP2PHost` (seed-based key-reader choice).

Channels are modelled by explicit event lists, goroutine bodies by pure
functions from their inputs (including the oracle result of each RPC) to the
list of effects they perform.
-/

namespace KoinosP2P

/-- `types.BlockHeightType` is a u64; heights in the claims stay far below
2^64, so `Nat` is used with no wrap-around modelling needed. -/
abbrev BlockHeight := Nat

/-- Opaque libp2p peer identifier (`peer.ID`); comparable and hashable. -/
abbrev PeerID := Nat

/-- Modelled from the spec: byte strings (block ids, block bodies) are opaque
sequences of bytes. -/
abbrev Bytes := List Nat

/-- `HeightRange` from `peer_handler.go`: a height and a number of blocks. -/
structure HeightRange where
  height : BlockHeight
  numBlocks : Nat
deriving DecidableEq, Repr

/-- Modelled from the spec: `BlockTopology` is the minimal identity of a block
in the fork graph: height, id, previous id (§3).  This is the wire type
(`types.BlockTopology`). -/
structure BlockTopology where
  id : Bytes
  previous : Bytes
  height : BlockHeight
deriving DecidableEq, Repr

/-- Modelled from the spec: the comparable form of a topology produced by
`util.BlockTopologyToCmp`; it carries the same identifying triple. -/
structure BlockTopologyCmp where
  id : Bytes
  previous : Bytes
  height : BlockHeight
deriving DecidableEq, Repr

/-- Modelled from the spec: `util.BlockTopologyToCmp` converts the wire
topology to its comparable form, preserving the identifying triple. -/
def BlockTopologyToCmp (b : BlockTopology) : BlockTopologyCmp :=
  { id := b.id, previous := b.previous, height := b.height }

/-- Modelled from the spec: `util.MultihashFromCmp` recovers the wire form of
a block id from its comparable form; ids are opaque bytes here. -/
def MultihashFromCmp (id : Bytes) : Bytes := id

/-- `PeerHasBlock` message: a peer advertises one block topology. -/
structure PeerHasBlock where
  peerID : PeerID
  block : BlockTopologyCmp
deriving DecidableEq, Repr

/-! ## C1 — the height-range coalescing loop (`heightRangeUpdateLoop`)

`heightRangeUpdateLoop` keeps local state `(hasValue, value)` — here an
`Option HeightRange` — and in each iteration either receives a fresh window
from `heightRangeChan` (overwriting `value`) or, when `hasValue`, hands the
buffered window to `peerHandlerLoop` over `internalHeightRangeChan`. -/

/-- One scheduling event of `heightRangeUpdateLoop`: either a send from
BdmiProvider arrives on `heightRangeChan`, or `peerHandlerLoop` reads
`internalHeightRangeChan` (a poll pickup). -/
inductive UpdateEvent where
  | recv (w : HeightRange)
  | deliver
deriving DecidableEq, Repr

/-- One iteration of `heightRangeUpdateLoop`: returns the new buffered state
and the window delivered to the polling loop, if any.  `recv` always
overwrites the buffer (both select arms store into `value`); `deliver` is
only enabled when a value is buffered and clears the buffer. -/
def updateStep (s : Option HeightRange) : UpdateEvent → Option HeightRange × Option HeightRange
  | .recv w => (some w, none)
  | .deliver =>
    match s with
    | some v => (none, some v)
    | none => (none, none)

/-- Run `heightRangeUpdateLoop` over a list of events, collecting the windows
delivered to `peerHandlerLoop` in order. -/
def runUpdate (s : Option HeightRange) : List UpdateEvent → Option HeightRange × List HeightRange
  | [] => (s, [])
  | e :: es =>
    let (s', d) := updateStep s e
    let (s'', ds) := runUpdate s' es
    (s'', d.toList ++ ds)

/-- In `peerHandlerLoop`, a delivery overwrites `h.heightRange`, which the
next `peerHandlerCycle` polls with; with no delivery the old range stays. -/
def loopHeightRange (hr : HeightRange) (delivered : Option HeightRange) : HeightRange :=
  delivered.getD hr

/-- C1: Window coalescing.  From any buffer state, sending `w1` then `w2`
with no interleaved poll leaves exactly `w2` buffered, delivers nothing in
between, and the next poll pickup delivers `w2` — the polling loop then polls
with `w2`, never with the superseded `w1`. -/
theorem window_coalescing (s : Option HeightRange) (hr w1 w2 : HeightRange) :
    runUpdate s [.recv w1, .recv w2] = (some w2, []) ∧
    runUpdate s [.recv w1, .recv w2, .deliver] = (none, [w2]) ∧
    loopHeightRange hr (runUpdate s [.recv w1, .recv w2, .deliver]).2.head? = w2 := by
  refine ⟨rfl, rfl, rfl⟩

/-! ## PeerHandler effect model (`peer_handler.go`)

`requestDownload`, `peerHandlerCycle` and their wrapper in `peerHandlerLoop`
are embedded as pure functions from their inputs — including the oracle
outcome of each peer RPC — to the ordered list of effects they perform
(RPC calls issued, messages sent on the various channels). -/

/-- A failure of a peer RPC call (`client.CallContext` returning non-nil),
covering transport errors and the context deadline being exceeded. -/
inductive RPCFailure where
  | rpcError (code : Nat)
  | timeout
deriving DecidableEq, Repr

/-- `PeerError` message sent on the shared error channel. -/
structure PeerError where
  peerID : PeerID
  err : RPCFailure
deriving DecidableEq, Repr

/-- `GetTopologyAtHeightRequest` from `peer_handler.go`. -/
structure GetTopologyAtHeightRequest where
  blockHeight : BlockHeight
  numBlocks : Nat
deriving DecidableEq, Repr

/-- `GetBlocksByIDRequest`: the list of requested block ids. -/
structure GetBlocksByIDRequest where
  blockID : List Bytes
deriving DecidableEq, Repr

/-- The payload of a peer RPC issued by a `PeerHandler` over the
`SyncService`. -/
inductive RPCCallData where
  | getTopologyAtHeight (req : GetTopologyAtHeightRequest)
  | getBlocksByID (req : GetBlocksByIDRequest)
deriving DecidableEq, Repr

/-- `BlockDownloadRequest` received from BdmiProvider. -/
structure BlockDownloadRequest where
  topology : BlockTopologyCmp
  peerID : PeerID
deriving DecidableEq, Repr

/-- The error recorded in a `BlockDownloadResponse`: the RPC call's own
failure, or the handler-made `errors.New("Got 0 blocks from peer")`. -/
inductive DownloadErr where
  | rpc (e : RPCFailure)
  | zeroBlocks
deriving DecidableEq, Repr

/-- `BlockDownloadResponse` sent back to BdmiProvider.  `block` is the opaque
block built from the first returned block item (none when errored). -/
structure BlockDownloadResponse where
  topology : BlockTopologyCmp
  peerID : PeerID
  block : Option Bytes
  err : Option DownloadErr
deriving DecidableEq, Repr

/-- `NewBlockDownloadResponse`: zero value, no error, no block. -/
def NewBlockDownloadResponse : BlockDownloadResponse :=
  { topology := { id := [], previous := [], height := 0 },
    peerID := 0, block := none, err := none }

/-- An observable effect of a `PeerHandler`: an RPC call carrying its context
deadline (milliseconds, absolute), or a send on one of the channels.
`disconnectPeer` is included in the vocabulary so that "the handler never
initiates a disconnect" is expressible; no handler function emits it. -/
inductive HandlerEffect where
  | rpcCall (call : RPCCallData) (deadline : Nat)
  | sendPeerError (e : PeerError)
  | sendPeerHasBlock (m : PeerHasBlock)
  | sendDownloadResponse (r : BlockDownloadResponse)
  | disconnectPeer (p : PeerID)
deriving DecidableEq, Repr

/-- `options.PeerHandlerOptions` fields used by the handler. -/
structure PeerHandlerOptions where
  rpcTimeoutMs : Nat
  downloadTimeoutMs : Nat
  heightRangePollTimeMs : Nat
deriving DecidableEq, Repr

/-- The goroutine body of `requestDownload`: issues `GetBlocksByID` for the
requested id under a `now + DownloadTimeoutMs` deadline, then builds the
response — topology copied from the request, peer id from the handler;
`err` set on RPC failure or when fewer than one block item came back,
otherwise `block` built from the first item — and sends it on the
download-response channel (unless the handler context is already done, in
which case the send is abandoned). -/
def requestDownload (hPeerID : PeerID) (opts : PeerHandlerOptions) (now : Nat)
    (req : BlockDownloadRequest) (rpcResult : Except RPCFailure (List Bytes))
    (ctxDone : Bool) : List HandlerEffect :=
  let rpcReq : GetBlocksByIDRequest := { blockID := [MultihashFromCmp req.topology.id] }
  let base := { NewBlockDownloadResponse with topology := req.topology, peerID := hPeerID }
  let resp :=
    match rpcResult with
    | .error e => { base with err := some (.rpc e) }
    | .ok items =>
      if items.length < 1 then
        { base with err := some .zeroBlocks }
      else
        { base with block := items.head? }
  [.rpcCall (.getBlocksByID rpcReq) (now + opts.downloadTimeoutMs)] ++
    (if ctxDone then [] else [.sendDownloadResponse resp])

/-- `peerHandlerCycle`: issues `GetTopologyAtHeight` with the handler's
current height range under a `now + RPCTimeoutMs` deadline; on RPC failure
returns the error, otherwise sends one `PeerHasBlock` per returned topology,
in response order.  The returned `Option RPCFailure` is the Go return
value. -/
def peerHandlerCycle (hPeerID : PeerID) (opts : PeerHandlerOptions) (now : Nat)
    (heightRange : HeightRange)
    (rpcResult : Except RPCFailure (List BlockTopology)) :
    List HandlerEffect × Option RPCFailure :=
  let req : GetTopologyAtHeightRequest :=
    { blockHeight := heightRange.height, numBlocks := heightRange.numBlocks }
  let call := HandlerEffect.rpcCall (.getTopologyAtHeight req) (now + opts.rpcTimeoutMs)
  match rpcResult with
  | .error e => ([call], some e)
  | .ok topos =>
    (call :: topos.map (fun b => .sendPeerHasBlock { peerID := hPeerID, block := BlockTopologyToCmp b }),
     none)

/-- `doPeerCycle` inside `peerHandlerLoop`: runs `peerHandlerCycle` and, when
it returned an error, sends `PeerError{h.peerID, err}` on the shared error
channel. -/
def doPeerCycle (hPeerID : PeerID) (opts : PeerHandlerOptions) (now : Nat)
    (heightRange : HeightRange)
    (rpcResult : Except RPCFailure (List BlockTopology)) : List HandlerEffect :=
  let (effs, res) := peerHandlerCycle hPeerID opts now heightRange rpcResult
  effs ++
    (match res with
     | some e => [.sendPeerError { peerID := hPeerID, err := e }]
     | none => [])

/-- Select the `sendPeerError` effects of a trace. -/
def peerErrorsOf (effs : List HandlerEffect) : List PeerError :=
  effs.filterMap fun e =>
    match e with
    | .sendPeerError pe => some pe
    | _ => none

/-- Select the `sendDownloadResponse` effects of a trace. -/
def downloadResponsesOf (effs : List HandlerEffect) : List BlockDownloadResponse :=
  effs.filterMap fun e =>
    match e with
    | .sendDownloadResponse r => some r
    | _ => none

/-- Select the `sendPeerHasBlock` effects of a trace. -/
def peerHasBlocksOf (effs : List HandlerEffect) : List PeerHasBlock :=
  effs.filterMap fun e =>
    match e with
    | .sendPeerHasBlock m => some m
    | _ => none

/-- Select the RPC calls of a trace, with their deadlines. -/
def rpcCallsOf (effs : List HandlerEffect) : List (RPCCallData × Nat) :=
  effs.filterMap fun e =>
    match e with
    | .rpcCall c d => some (c, d)
    | _ => none

/-- Whether a trace contains a `disconnectPeer` effect. -/
def initiatesDisconnect (effs : List HandlerEffect) : Bool :=
  effs.any fun e =>
    match e with
    | .disconnectPeer _ => true
    | _ => false

/-- The sends of a `filterMap`-style projection applied to a list of
`sendPeerHasBlock` effects built by `map`. -/
theorem filterMap_map_some {α β γ : Type} (g : α → β) (f : β → Option γ)
    (h : α → γ) (hf : ∀ a, f (g a) = some (h a)) (l : List α) :
    (l.map g).filterMap f = l.map h := by
  induction l with
  | nil => rfl
  | cons a t ih => simp [List.filterMap_cons, hf, ih]

/-- A projection that rejects every element of a mapped list yields `[]`. -/
theorem filterMap_map_none {α β γ : Type} (g : α → β) (f : β → Option γ)
    (hf : ∀ a, f (g a) = none) (l : List α) :
    (l.map g).filterMap f = [] := by
  induction l with
  | nil => rfl
  | cons a t ih => simp [List.filterMap_cons, hf, ih]

/-- C2: Each handled `BlockDownloadRequest` yields exactly one
`BlockDownloadResponse` (none when the handler context was already
cancelled), carrying the request's topology and the handler's peer id; its
`err` is `none` exactly when the RPC succeeded with at least one block item,
and in that case `block` is built from the first returned item. -/
theorem block_download_response (pid : PeerID) (opts : PeerHandlerOptions)
    (now : Nat) (req : BlockDownloadRequest)
    (r : Except RPCFailure (List Bytes)) :
    ((downloadResponsesOf (requestDownload pid opts now req r false)).length = 1 ∧
      downloadResponsesOf (requestDownload pid opts now req r true) = []) ∧
    ∀ resp ∈ downloadResponsesOf (requestDownload pid opts now req r false),
      resp.topology = req.topology ∧ resp.peerID = pid ∧
      (resp.err = none ↔ ∃ items, r = .ok items ∧ 1 ≤ items.length) ∧
      (∀ items, r = .ok items → 1 ≤ items.length → resp.block = items.head?) := by
  constructor
  · cases r with
    | error e => exact ⟨rfl, rfl⟩
    | ok items =>
      by_cases h : items.length < 1 <;>
        simp [requestDownload, downloadResponsesOf, NewBlockDownloadResponse, h]
  · intro resp hresp
    cases r with
    | error e =>
      simp [requestDownload, downloadResponsesOf, NewBlockDownloadResponse] at hresp
      subst hresp
      refine ⟨rfl, rfl, ?_, ?_⟩
      · constructor
        · intro hc; exact absurd hc (by simp)
        · rintro ⟨l, hl, _⟩; cases hl
      · intro l hl; cases hl
    | ok items =>
      by_cases h : items.length < 1
      · simp [requestDownload, downloadResponsesOf, NewBlockDownloadResponse, h] at hresp
        subst hresp
        refine ⟨rfl, rfl, ?_, ?_⟩
        · constructor
          · intro hc; exact absurd hc (by simp)
          · rintro ⟨l, hl, hlen⟩
            injection hl with h2
            subst h2
            omega
        · intro l hl hlen
          injection hl with h2
          subst h2
          omega
      · simp [requestDownload, downloadResponsesOf, NewBlockDownloadResponse, h] at hresp
        subst hresp
        refine ⟨rfl, rfl, ?_, ?_⟩
        · constructor
          · intro _; exact ⟨items, rfl, by omega⟩
          · intro _; rfl
        · intro l hl _
          injection hl with h2
          subst h2
          rfl

/-- Witness for `block_download_response` at a concrete successful download. -/
theorem block_download_response_witness :
    ({ topology := { id := [9], previous := [8], height := 5 }, peerID := 7,
       block := some [1, 2], err := none } : BlockDownloadResponse).topology =
        ({ topology := { id := [9], previous := [8], height := 5 }, peerID := 3 } :
          BlockDownloadRequest).topology ∧
    ({ topology := { id := [9], previous := [8], height := 5 }, peerID := 7,
       block := some [1, 2], err := none } : BlockDownloadResponse).peerID = 7 ∧
    (({ topology := { id := [9], previous := [8], height := 5 }, peerID := 7,
        block := some [1, 2], err := none } : BlockDownloadResponse).err = none ↔
      ∃ items, (Except.ok [[1, 2]] : Except RPCFailure (List Bytes)) = .ok items ∧
        1 ≤ items.length) ∧
    (∀ items, (Except.ok [[1, 2]] : Except RPCFailure (List Bytes)) = .ok items →
      1 ≤ items.length →
      ({ topology := { id := [9], previous := [8], height := 5 }, peerID := 7,
         block := some [1, 2], err := none } : BlockDownloadResponse).block =
        items.head?) :=
  (block_download_response 7 ⟨1000, 10000, 500⟩ 0
      { topology := { id := [9], previous := [8], height := 5 }, peerID := 3 }
      (.ok [[1, 2]])).2
    { topology := { id := [9], previous := [8], height := 5 }, peerID := 7,
      block := some [1, 2], err := none }
    (by decide)

/-- C4: A topology poll cycle issues exactly one RPC — `GetTopologyAtHeight`
with the handler's current height range — and, on success, emits exactly one
`PeerHasBlock{peer_id, topology}` per returned topology, tagged with the
handler's peer id, in response order. -/
theorem topology_poll_emission (pid : PeerID) (opts : PeerHandlerOptions)
    (now : Nat) (hr : HeightRange)
    (r : Except RPCFailure (List BlockTopology)) (topos : List BlockTopology) :
    rpcCallsOf (doPeerCycle pid opts now hr r) =
      [(.getTopologyAtHeight { blockHeight := hr.height, numBlocks := hr.numBlocks },
        now + opts.rpcTimeoutMs)] ∧
    peerHasBlocksOf (doPeerCycle pid opts now hr (.ok topos)) =
      topos.map (fun b => { peerID := pid, block := BlockTopologyToCmp b }) := by
  constructor
  · cases r with
    | error e => rfl
    | ok l =>
      simp only [doPeerCycle, peerHandlerCycle, rpcCallsOf, List.filterMap_cons,
        List.filterMap_append]
      rw [filterMap_map_none (fun b => HandlerEffect.sendPeerHasBlock
        { peerID := pid, block := BlockTopologyToCmp b }) _ (fun a => rfl)]
      rfl
  · simp only [doPeerCycle, peerHandlerCycle, peerHasBlocksOf, List.filterMap_cons,
      List.filterMap_append]
    rw [filterMap_map_some (fun b => HandlerEffect.sendPeerHasBlock
      { peerID := pid, block := BlockTopologyToCmp b }) _
      (fun b => { peerID := pid, block := BlockTopologyToCmp b }) (fun a => rfl)]
    simp

/-- C7: Every peer RPC a `PeerHandler` issues carries an explicit deadline:
the topology poll runs under `now + RPCTimeoutMs`, the block download under
`now + DownloadTimeoutMs`; the deadline list of each trace is exactly the
one prescribed deadline, so no RPC goes out without a timeout. -/
theorem rpc_calls_carry_deadline (pid : PeerID) (opts : PeerHandlerOptions)
    (now : Nat) (hr : HeightRange) (req : BlockDownloadRequest)
    (r : Except RPCFailure (List BlockTopology))
    (rd : Except RPCFailure (List Bytes)) (ctxDone : Bool) :
    (rpcCallsOf (doPeerCycle pid opts now hr r)).map Prod.snd =
      [now + opts.rpcTimeoutMs] ∧
    (rpcCallsOf (requestDownload pid opts now req rd ctxDone)).map Prod.snd =
      [now + opts.downloadTimeoutMs] := by
  constructor
  · cases r with
    | error e => rfl
    | ok l =>
      simp only [doPeerCycle, peerHandlerCycle, rpcCallsOf, List.filterMap_cons,
        List.filterMap_append]
      rw [filterMap_map_none (fun b => HandlerEffect.sendPeerHasBlock
        { peerID := pid, block := BlockTopologyToCmp b }) _ (fun a => rfl)]
      rfl
  · cases rd with
    | error e => cases ctxDone <;> rfl
    | ok items =>
      by_cases h : items.length < 1 <;> cases ctxDone <;>
        simp [requestDownload, rpcCallsOf, h]

/-- C3 counterexample: a failed block-download RPC does NOT emit any
`PeerError` on the shared error channel — `requestDownload` records the
failure in the `err` field of the `BlockDownloadResponse` it sends on the
download-response channel instead.  Concretely, peer 7's download of block
id `[9]` fails with an RPC error, yet `peerErrorsOf` of the trace is
empty. -/
theorem download_error_reaches_no_error_channel :
    peerErrorsOf (requestDownload 7 ⟨1000, 10000, 500⟩ 0
        { topology := { id := [9], previous := [8], height := 5 }, peerID := 7 }
        (.error (.rpcError 1)) false) = [] ∧
    (downloadResponsesOf (requestDownload 7 ⟨1000, 10000, 500⟩ 0
        { topology := { id := [9], previous := [8], height := 5 }, peerID := 7 }
        (.error (.rpcError 1)) false)).map (fun resp => resp.err) =
      [some (.rpc (.rpcError 1))] := by
  exact ⟨rfl, rfl⟩

/-- C3 amended: a topology-poll RPC failure emits exactly one
`PeerError{peer_id, err}` on the shared error channel (and a successful poll
emits none); a block-download RPC failure emits nothing on the error channel
and is instead carried in the `err` field of the `BlockDownloadResponse`;
and neither handler path ever initiates a disconnect. -/
theorem peer_error_emission (pid : PeerID) (opts : PeerHandlerOptions)
    (now : Nat) (hr : HeightRange) (req : BlockDownloadRequest)
    (e : RPCFailure) (topos : List BlockTopology)
    (r : Except RPCFailure (List BlockTopology))
    (rd : Except RPCFailure (List Bytes)) (ctxDone : Bool) :
    peerErrorsOf (doPeerCycle pid opts now hr (.error e)) =
      [{ peerID := pid, err := e }] ∧
    peerErrorsOf (doPeerCycle pid opts now hr (.ok topos)) = [] ∧
    peerErrorsOf (requestDownload pid opts now req rd ctxDone) = [] ∧
    (downloadResponsesOf (requestDownload pid opts now req (.error e) false)).map
      (fun resp => resp.err) = [some (.rpc e)] ∧
    initiatesDisconnect (doPeerCycle pid opts now hr r) = false ∧
    initiatesDisconnect (requestDownload pid opts now req rd ctxDone) = false := by
  refine ⟨rfl, ?_, ?_, rfl, ?_, ?_⟩
  · simp only [doPeerCycle, peerHandlerCycle, peerErrorsOf, List.filterMap_cons,
      List.filterMap_append]
    rw [filterMap_map_none (fun b => HandlerEffect.sendPeerHasBlock
      { peerID := pid, block := BlockTopologyToCmp b }) _ (fun a => rfl)]
    rfl
  · cases rd with
    | error e2 => cases ctxDone <;> rfl
    | ok items =>
      by_cases h : items.length < 1 <;> cases ctxDone <;>
        simp [requestDownload, peerErrorsOf, h]
  · cases r with
    | error e2 => rfl
    | ok l =>
      simp only [doPeerCycle, peerHandlerCycle, initiatesDisconnect, List.any_cons,
        List.any_append]
      simp [List.any_map]
  · cases rd with
    | error e2 => cases ctxDone <;> rfl
    | ok items =>
      by_cases h : items.length < 1 <;> cases ctxDone <;>
        simp [requestDownload, initiatesDisconnect, h]

/-! ## ConnectionManager (`connection_manager.go`)

The `connectedPeers` map is modelled as an association list from peer id to
the peer's cancellation context (numbered so that distinct contexts are
distinguishable); `context.CancelFunc` invocation is recorded as the list of
context numbers cancelled by a handler run. -/

/-- `maxSleepBackoff` from `connection_manager.go`. -/
def maxSleepBackoff : Nat := 30

/-- Go's local `min(a, b int) int` from `connection_manager.go`. -/
def goMin (a b : Nat) : Nat :=
  if a < b then a else b

/-- The backoff update `sleepTimeSeconds = min(maxSleepBackoff,
sleepTimeSeconds*2)` performed after each failed round. -/
def nextBackoff (s : Nat) : Nat :=
  goMin maxSleepBackoff (s * 2)

/-- The value of `sleepTimeSeconds` at the n-th sleep (0-based): it starts
at 1 and is doubled-with-cap after every round, in both `handleDisconnected`'s
reconnect goroutine and `connectInitialPeers`. -/
def sleepTime : Nat → Nat
  | 0 => 1
  | n + 1 => nextBackoff (sleepTime n)

/-- The sleeps performed by the reconnect loop of `handleDisconnected`, given
the current `sleepTimeSeconds` and the success of each successive
`connectToPeer` attempt: on success the goroutine returns; on failure it
sleeps the current backoff and retries with the doubled-and-capped value. -/
def retrySleeps (s : Nat) : List Bool → List Nat
  | [] => []
  | ok :: rest => if ok then [] else s :: retrySleeps (nextBackoff s) rest

/-- Number of failed attempts before the first success. -/
def leadingFailures : List Bool → Nat
  | [] => 0
  | ok :: rest => if ok then 0 else leadingFailures rest + 1

/-- `goMin` is `Nat.min`. -/
theorem goMin_eq_min (a b : Nat) : goMin a b = min a b := by
  unfold goMin
  split <;> omega

/-- The backoff sequence in closed form: the n-th sleep is
`min (2 ^ n) 30`. -/
theorem sleepTime_eq (n : Nat) : sleepTime n = min (2 ^ n) 30 := by
  induction n with
  | zero => rfl
  | succ n ih =>
    have h1 : (1 : Nat) ≤ 2 ^ n := Nat.one_le_two_pow
    have h2 : (2 : Nat) ^ (n + 1) = 2 ^ n * 2 := by
      rw [pow_succ]
    simp only [sleepTime, nextBackoff, goMin_eq_min, ih, maxSleepBackoff, h2]
    omega

/-- The sleeps of the retry loop started with backoff state `sleepTime n`:
one sleep per leading failure, with the backoff advancing each round. -/
theorem retrySleeps_formula (outs : List Bool) (n : Nat) :
    retrySleeps (sleepTime n) outs =
      (List.range (leadingFailures outs)).map (fun i => sleepTime (n + i)) := by
  induction outs generalizing n with
  | nil => rfl
  | cons ok rest ih =>
    by_cases h : ok
    · simp [retrySleeps, leadingFailures, h]
    · have hstep : nextBackoff (sleepTime n) = sleepTime (n + 1) := rfl
      simp only [retrySleeps, leadingFailures, h, if_false, Bool.false_eq_true,
        hstep, ih (n + 1)]
      rw [List.range_succ_eq_map]
      simp only [List.map_cons, List.map_map]
      congr 1
      apply List.map_congr_left
      intro i _
      simp only [Function.comp_apply]
      congr 1
      omega

/-- C5: Initial-peer reconnect backoff.  The retry loop (started with
`sleepTimeSeconds = 1`) keeps retrying until the connection succeeds —
exactly one sleep per failed attempt — and the sleep before attempt `n+1`
(0-based attempts) is exactly `min (2 ^ n) 30` seconds, hence starts at 1,
doubles after each failed round, and never exceeds 30 seconds. -/
theorem initial_peer_backoff (outs : List Bool) (n : Nat) :
    retrySleeps 1 outs =
      (List.range (leadingFailures outs)).map (fun i => min (2 ^ i) 30) ∧
    sleepTime n = min (2 ^ n) 30 ∧
    sleepTime n ≤ 30 := by
  refine ⟨?_, sleepTime_eq n, ?_⟩
  · have h0 : (1 : Nat) = sleepTime 0 := rfl
    rw [h0, retrySleeps_formula]
    apply List.map_congr_left
    intro i _
    rw [Nat.zero_add, sleepTime_eq]
  · rw [sleepTime_eq]
    omega

/-- The `connectedPeers` map: association list from peer id to the number of
that peer's cancellation context (`peerConnectionContext`). -/
abbrev PeerMap := List (PeerID × Nat)

/-- Result of `handleDisconnected`: the updated `connectedPeers` map, the
contexts whose `cancel` was invoked, whether a reconnect goroutine was
spawned (the peer is an initial peer), and the id sent on
`signalPeerDisconnectChan` (dropped when the manager context is done). -/
structure DisconnectResult where
  connectedPeers : PeerMap
  cancelledCtxs : List Nat
  reconnectStarted : Bool
  signalled : Option PeerID
deriving DecidableEq, Repr

/-- `handleDisconnected`: if the remote peer is in `connectedPeers`, cancel
its context and delete its entry; if it is an initial peer, spawn the
backoff reconnect goroutine; finally signal the peer id on
`signalPeerDisconnectChan` (unless the manager context is done). -/
def handleDisconnected (connectedPeers : PeerMap) (initialPeers : List PeerID)
    (pid : PeerID) (ctxDone : Bool) : DisconnectResult :=
  let (cancelled, peers') :=
    match connectedPeers.lookup pid with
    | some ctx => ([ctx], connectedPeers.filter (fun e => e.1 ≠ pid))
    | none => ([], connectedPeers)
  { connectedPeers := peers',
    cancelledCtxs := cancelled,
    reconnectStarted := initialPeers.contains pid,
    signalled := if ctxDone then none else some pid }

/-- Result of `handleConnected`: the updated map, the context of a newly
started `PeerConnection` if one was created, and whether the address was
published on the peer-exchange gossip topic. -/
structure ConnectResult where
  connectedPeers : PeerMap
  startedCtx : Option Nat
  published : Bool
deriving DecidableEq, Repr

/-- `handleConnected`: only when the remote peer is absent from
`connectedPeers` does it create a child context, build a `PeerConnection`,
start it and insert it into the map; either way it publishes the peer
address. -/
def handleConnected (connectedPeers : PeerMap) (pid : PeerID)
    (freshCtx : Nat) : ConnectResult :=
  match connectedPeers.lookup pid with
  | some _ =>
    { connectedPeers := connectedPeers, startedCtx := none, published := true }
  | none =>
    { connectedPeers := (pid, freshCtx) :: connectedPeers,
      startedCtx := some freshCtx, published := true }

/-- Looking up a different key is unaffected by filtering out `pid`'s
entries. -/
theorem lookup_filter_ne (m : PeerMap) (pid q : PeerID) (hq : q ≠ pid) :
    (m.filter (fun e => e.1 ≠ pid)).lookup q = m.lookup q := by
  induction m with
  | nil => rfl
  | cons a t ih =>
    obtain ⟨a1, a2⟩ := a
    rw [List.filter_cons]
    by_cases ha : a1 = pid
    · rw [if_neg (by simp [ha]), ih]
      have hne : (q == a1) = false := by
        subst ha
        simp [hq]
      simp [List.lookup, hne]
    · rw [if_pos (by simp [ha])]
      by_cases hqa : q = a1
      · subst hqa
        simp [List.lookup]
      · have hne : (q == a1) = false := by simp [hqa]
        simp only [List.lookup, hne]
        exact ih

/-- After filtering out `pid`'s entries, looking up `pid` gives nothing. -/
theorem lookup_filter_self (m : PeerMap) (pid : PeerID) :
    (m.filter (fun e => e.1 ≠ pid)).lookup pid = none := by
  induction m with
  | nil => rfl
  | cons a t ih =>
    obtain ⟨a1, a2⟩ := a
    rw [List.filter_cons]
    by_cases ha : a1 = pid
    · rw [if_neg (by simp [ha])]
      exact ih
    · rw [if_pos (by simp [ha])]
      have hne : (pid == a1) = false := beq_eq_false_iff_ne.mpr (Ne.symm ha)
      simp only [List.lookup, hne]
      exact ih

/-- C8: Disconnect isolation.  Handling `PeerDisconnected(p)` removes exactly
`p`'s entry from `connectedPeers` — every other peer's entry is looked up
unchanged — cancels exactly `p`'s registered context (no context of any
other entry is cancelled beyond it), and then signals `p` on the disconnect
channel. -/
theorem disconnect_isolation (m : PeerMap) (initials : List PeerID)
    (pid q : PeerID) (hq : q ≠ pid) :
    (handleDisconnected m initials pid false).connectedPeers.lookup pid = none ∧
    (handleDisconnected m initials pid false).connectedPeers.lookup q = m.lookup q ∧
    (handleDisconnected m initials pid false).cancelledCtxs =
      (m.lookup pid).toList ∧
    (handleDisconnected m initials pid false).signalled = some pid := by
  cases hm : m.lookup pid with
  | some ctx =>
    refine ⟨?_, ?_, ?_, ?_⟩
    · simp only [handleDisconnected, hm]
      exact lookup_filter_self m pid
    · simp only [handleDisconnected, hm]
      exact lookup_filter_ne m pid q hq
    · simp [handleDisconnected, hm]
    · simp [handleDisconnected, hm]
  | none =>
    refine ⟨?_, ?_, ?_, ?_⟩
    · simp [handleDisconnected, hm]
    · simp [handleDisconnected, hm]
    · simp [handleDisconnected, hm]
    · simp [handleDisconnected, hm]

/-- Witness for `disconnect_isolation`: peer 2 disconnects from a map holding
peers 1, 2, 3; peer 1's entry survives untouched and only context 20 is
cancelled. -/
theorem disconnect_isolation_witness :
    (handleDisconnected [(1, 10), (2, 20), (3, 30)] [5] 2 false).connectedPeers.lookup 2 =
      none ∧
    (handleDisconnected [(1, 10), (2, 20), (3, 30)] [5] 2 false).connectedPeers.lookup 1 =
      ([(1, 10), (2, 20), (3, 30)] : PeerMap).lookup 1 ∧
    (handleDisconnected [(1, 10), (2, 20), (3, 30)] [5] 2 false).cancelledCtxs =
      (([(1, 10), (2, 20), (3, 30)] : PeerMap).lookup 2).toList ∧
    (handleDisconnected [(1, 10), (2, 20), (3, 30)] [5] 2 false).signalled = some 2 :=
  disconnect_isolation [(1, 10), (2, 20), (3, 30)] [5] 2 1 (by decide)

/-- C9: `handleConnected` is idempotent on the peer map: a `Connected`
event for a peer already present in `connectedPeers` starts no new
`PeerConnection` task and leaves the map unchanged. -/
theorem connected_idempotent (m : PeerMap) (pid : PeerID) (freshCtx ctx : Nat)
    (h : m.lookup pid = some ctx) :
    (handleConnected m pid freshCtx).connectedPeers = m ∧
    (handleConnected m pid freshCtx).startedCtx = none := by
  simp [handleConnected, h]

/-- Witness for `connected_idempotent`: a repeated `Connected` event for
peer 2. -/
theorem connected_idempotent_witness :
    (handleConnected [(1, 10), (2, 20)] 2 99).connectedPeers = [(1, 10), (2, 20)] ∧
    (handleConnected [(1, 10), (2, 20)] 2 99).startedCtx = none :=
  connected_idempotent [(1, 10), (2, 20)] 2 99 20 (by decide)

/-! ## GossipToggleOptions and the command-line flags

`internal/options` (`GossipToggleOptions`, `NewGossipToggleOptions`) and the
flag handling of `cmd/koinos-p2p/main.go`.  The `float64` thresholds are
modelled over `ℚ`; the claims here only concern the two override booleans. -/

/-- `GossipToggleOptions` from `internal/options`. -/
structure GossipToggleOptions where
  enableThreshold : ℚ
  disableThreshold : ℚ
  alwaysEnable : Bool
  alwaysDisable : Bool
deriving DecidableEq, Repr

/-- `NewGossipToggleOptions`: the defaults — thresholds 0.66 and 0.33, both
override flags off. -/
def NewGossipToggleOptions : GossipToggleOptions :=
  { enableThreshold := 66 / 100,
    disableThreshold := 33 / 100,
    alwaysEnable := false,
    alwaysDisable := false }

/-- The gossip-override part of `main`: starting from the defaults, set
`AlwaysDisable` when `--disable-gossip` is given and, independently, set
`AlwaysEnable` when `--force-gossip` is given. -/
def mainGossipToggleOptions (disableGossip forceGossip : Bool) :
    GossipToggleOptions :=
  let cfg := NewGossipToggleOptions
  let cfg := if disableGossip then { cfg with alwaysDisable := true } else cfg
  if forceGossip then { cfg with alwaysEnable := true } else cfg

/-- C6 counterexample: the program does not keep `AlwaysEnable` and
`AlwaysDisable` mutually exclusive — running with both `--disable-gossip`
and `--force-gossip` constructs a configuration with both overrides true. -/
theorem gossip_overrides_both_true :
    (mainGossipToggleOptions true true).alwaysEnable = true ∧
    (mainGossipToggleOptions true true).alwaysDisable = true := by
  exact ⟨rfl, rfl⟩

/-- C6 amended: the constructed configuration has `AlwaysDisable` equal to
the `--disable-gossip` flag and `AlwaysEnable` equal to the `--force-gossip`
flag (both default false), so the two overrides are simultaneously true
exactly when both flags are given; whenever at most one of the flags is set
— in particular in the default configuration — mutual exclusivity holds. -/
theorem gossip_overrides_characterization (d f : Bool) :
    (mainGossipToggleOptions d f).alwaysDisable = d ∧
    (mainGossipToggleOptions d f).alwaysEnable = f ∧
    (((mainGossipToggleOptions d f).alwaysEnable = true ∧
        (mainGossipToggleOptions d f).alwaysDisable = true) ↔
      (d = true ∧ f = true)) ∧
    NewGossipToggleOptions.alwaysEnable = false ∧
    NewGossipToggleOptions.alwaysDisable = false := by
  cases d <;> cases f <;> simp [mainGossipToggleOptions, NewGossipToggleOptions]

/-! ## Node identity (`NewKoinosP2PHost`)

`NewKoinosP2PHost` chooses the randomness source for RSA key generation:
`crypto/rand.Reader` when `seed == 0`, otherwise the deterministic
`math/rand` stream seeded with `seed` — although its doc comment says a
negative seed selects the random source. -/

/-- The randomness source feeding `crypto.GenerateKeyPairWithReader`: either
the cryptographic reader or the `math/rand` pseudo-random stream determined
entirely by its seed. -/
inductive KeyReader where
  | cryptoRand
  | mathRand (seed : Int)
deriving DecidableEq, Repr

/-- The reader choice made at the top of `NewKoinosP2PHost`:
`if seed == 0`, the crypto reader, else `mrand.New(mrand.NewSource(seed))`. -/
def hostKeyReader (seed : Int) : KeyReader :=
  if seed == 0 then .cryptoRand else .mathRand seed

/-- C10: Identity generation is deterministic in the seed: for any nonzero
seed — negative seeds included — `NewKoinosP2PHost` derives the key from the
pseudo-random stream determined by that seed, so two calls with the same
seed use identical streams; only a seed of exactly 0 (not a negative seed,
as the doc comment says) selects the cryptographic random source. -/
theorem host_key_reader_selection (seed : Int) :
    (seed ≠ 0 → hostKeyReader seed = .mathRand seed) ∧
    hostKeyReader 0 = .cryptoRand ∧
    (seed < 0 → hostKeyReader seed ≠ .cryptoRand) := by
  refine ⟨?_, rfl, ?_⟩
  · intro h
    simp [hostKeyReader, h]
  · intro h
    have hne : seed ≠ 0 := by omega
    simp [hostKeyReader, hne]

/-- Witness for `host_key_reader_selection` at the negative seed -3: the
stream is the deterministic one, not the cryptographic source. -/
theorem host_key_reader_selection_witness :
    hostKeyReader (-3) = .mathRand (-3) ∧
    hostKeyReader 0 = .cryptoRand ∧
    hostKeyReader (-3) ≠ .cryptoRand :=
  ⟨(host_key_reader_selection (-3)).1 (by decide),
   (host_key_reader_selection (-3)).2.1,
   (host_key_reader_selection (-3)).2.2 (by decide)⟩

end KoinosP2P
